import Mathlib

/-!
Verification development for the HAR cleaning utility in src/har_cleaner.py.

The program is embedded shallowly:

* JSON values produced by the standard library decoder are modelled by
  `JsonValue` (JSON numbers are modelled as integers; no numeric value is
  ever inspected by the program beyond truthiness, so this loses nothing
  relevant to the properties below).
* `json.loads` is modelled by an arbitrary decoder
  `jdec : String → Option JsonValue`; `none` models a raised
  `json.JSONDecodeError`.  Every property proved below holds for every
  decoder, and every property only constrains the decoder through its
  success or failure on the concrete strings at hand, which is exactly how
  the program itself depends on `json.loads`.
* The regular expressions in `is_interesting_url` are all of the shape
  "literal chunks separated by `.*`, optionally anchored by a final `$`",
  with `\.` escaping a literal dot.  They are modelled by `Pattern`
  (the list of literal chunks plus the anchor flag) and the executable
  matcher `reSearch`, which implements `re.search` with `re.IGNORECASE`
  for that fragment: case folding on both sides, `.*` matching any
  characters except a newline, and `$` matching at the end of the string
  or just before a trailing newline.
* Uncaught Python exceptions are modelled by `Except PyError`; a run that
  returns `Except.error` aborts before the output file is written.
-/


/-- A decoded JSON value as produced by the standard library decoder
(dictionaries keep their insertion order as a list of key/value pairs). -/
inductive JsonValue where
  | null : JsonValue
  | bool : Bool → JsonValue
  | num : Int → JsonValue
  | str : String → JsonValue
  | arr : List JsonValue → JsonValue
  | obj : List (String × JsonValue) → JsonValue

/-- The uncaught Python exceptions relevant to this program, plus
`emptyInput`, the dedicated error demanded by the specification for
zero-entry inputs.  The program itself never produces `emptyInput`;
the constructor exists so that this demand can be stated and compared
with what the code actually raises (see claim C6). -/
inductive PyError where
  | keyError : PyError
  | typeError : PyError
  | attributeError : PyError
  | zeroDivisionError : PyError
  | emptyInput : PyError
deriving DecidableEq

/-- One regular expression of the fragment used by `is_interesting_url`:
literal chunks separated by `.*`, with `anchored = true` recording a
trailing `$`.  For example the source pattern `/api/.*/chat` becomes
`⟨["/api/".toList, "/chat".toList], false⟩` and `\.js$` becomes
`⟨[".js".toList], true⟩`. -/
structure Pattern where
  chunks : List (List Char)
  anchored : Bool

/-- Does the literal chunk `ch` occur in `s` starting exactly at index `i`? -/
def chunkAt (s ch : List Char) (i : Nat) : Bool :=
  ch.isPrefixOf (s.drop i)

/-- No newline occurs in `s` between positions `i` (inclusive) and `j`
(exclusive); this is the constraint `.*` puts on the characters it skips. -/
def noNL (s : List Char) (i j : Nat) : Bool :=
  ((s.drop i).take (j - i)).all fun c => !(c == '\n')

/-- Match the remaining chunks of a pattern from position `i` on: each chunk
may be preceded by a newline-free gap (the `.*`), and if the pattern is
anchored the final position must be the end of the string or just before a
trailing newline (the Python semantics of `$`). -/
def matchTail (s : List Char) (anchored : Bool) : List (List Char) → Nat → Bool
  | [], i =>
      !anchored || (i == s.length) || ((i + 1 == s.length) && chunkAt s ['\n'] i)
  | ch :: rest, i =>
      (List.range (s.length + 1)).any fun j =>
        decide (i ≤ j) && noNL s i j && chunkAt s ch j &&
          matchTail s anchored rest (j + ch.length)

/-- `re.search(pattern, url, re.IGNORECASE)` for the pattern fragment of this
program: both the subject and the pattern literals are lowercased, the first
chunk may start anywhere, and the remaining chunks follow as in `matchTail`. -/
def reSearch (p : Pattern) (url : String) : Bool :=
  let s := url.toList.map Char.toLower
  match p.chunks.map (fun ch => ch.map Char.toLower) with
  | [] => true
  | ch :: rest =>
      (List.range (s.length + 1)).any fun i =>
        chunkAt s ch i && matchTail s p.anchored rest (i + ch.length)

/-- The `interesting_patterns` list of `is_interesting_url`
(src/har_cleaner.py lines 12-18), with each regex translated to `Pattern`. -/
def interesting_patterns : List Pattern :=
  [⟨["rtm-mcp-server.vcto-6e7.workers.dev".toList], false⟩,
   ⟨["anthropic.com".toList], false⟩,
   ⟨["/api/".toList, "/chat".toList], false⟩,
   ⟨["/api/".toList, "/mcp/".toList], false⟩,
   ⟨["wss://".toList, "mcp".toList], false⟩]

/-- The `noise_patterns` list of `is_interesting_url`
(src/har_cleaner.py lines 21-26). -/
def noise_patterns : List Pattern :=
  [⟨[".js".toList], true⟩,
   ⟨[".css".toList], true⟩,
   ⟨[".png".toList], true⟩,
   ⟨[".jpg".toList], true⟩,
   ⟨[".ico".toList], true⟩,
   ⟨["/_next/".toList], false⟩,
   ⟨["/static/".toList], false⟩,
   ⟨["/assets/".toList], false⟩,
   ⟨["intercom.io".toList], false⟩,
   ⟨["amplitude.com".toList], false⟩,
   ⟨["google".toList], false⟩,
   ⟨["gtag".toList], false⟩,
   ⟨["fonts.googleapis.com".toList], false⟩,
   ⟨["wix".toList], false⟩,
   ⟨["SearchWix".toList], false⟩]

/-- `is_interesting_url` (src/har_cleaner.py lines 10-36): scan the noise
patterns first and return `false` on the first match, then scan the interest
patterns and return `true` on the first match, else `false`.  `List.any`
short-circuits exactly like the two `for` loops with early `return`. -/
def is_interesting_url (url : String) : Bool :=
  if noise_patterns.any (fun p => reSearch p url) then false
  else interesting_patterns.any (fun p => reSearch p url)

/-- The textual request payload holder `request.postData` of a HAR entry;
the `text` key is optional (line 48 checks for it separately). -/
structure PostData where
  text : Option String

/-- The textual response payload holder `response.content`; the `text` key
is optional (line 56 checks for it separately). -/
structure Content where
  text : Option String

/-- The `request` part of a HAR entry: `url` and `method` are required by
the extractor, `postData` is optional. -/
structure Request where
  url : String
  method : String
  postData : Option PostData

/-- The `response` part of a HAR entry: `status` is required, `content` is
optional. -/
structure Response where
  status : Int
  content : Option Content

/-- One recorded WebSocket message: the HAR exporter may omit any of
`type`, `time` and `data`.  Field `msgType` models the `type` key. -/
structure WSMessage where
  msgType : Option String
  time : Option String
  data : Option String

/-- A capture entry as described by the data model of the specification:
the required nested fields, plus the three optional parts.
`webSocketMessages` models the optional `_webSocketMessages` key. -/
structure Entry where
  request : Request
  response : Response
  startedDateTime : String
  webSocketMessages : Option (List WSMessage)

/-- One normalized WebSocket message `{type, time, data}` as appended by
the loop at lines 70-84; `data` holds either the decoded structure or the
raw payload text. -/
structure CleanedWS where
  msgType : String
  time : String
  data : JsonValue

/-- The normalized record built by `extract_interesting_content`: the four
required fields copied verbatim, plus the three conditional fields.  An
`Option` field being `none` models the corresponding key being absent from
the emitted dictionary. -/
structure CleanedEntry where
  url : String
  method : String
  status : Int
  startedDateTime : String
  requestBody : Option JsonValue
  responseBody : Option JsonValue
  webSocketMessages : Option (List CleanedWS)

/-- The request-body block of `extract_interesting_content`
(src/har_cleaner.py lines 48-53): if `postData` and its `text` key are
present, decode the text; on success store the decoded structure, on a
decode failure store the raw text.  There is no emptiness or size check. -/
def requestBodyTyped (jdec : String → Option JsonValue) :
    Option PostData → Option JsonValue
  | none => none
  | some pd =>
    match pd.text with
    | none => none
    | some t =>
      match jdec t with
      | some v => some v
      | none => some (.str t)

/-- The response-body block (src/har_cleaner.py lines 56-65): if `content`
and its `text` key are present and the text is truthy (non-empty), decode
it; on success store the decoded structure, on a decode failure store the
raw text only when it is shorter than 10000 characters, else store
nothing. -/
def responseBodyTyped (jdec : String → Option JsonValue) :
    Option Content → Option JsonValue
  | none => none
  | some c =>
    match c.text with
    | none => none
    | some t =>
      if t.isEmpty then none
      else
        match jdec t with
        | some v => some v
        | none => if t.length < 10000 then some (.str t) else none

/-- The body of the `for msg in entry[..]` loop at lines 70-84, applied to
the whole message list.  A message without a `data` key appends nothing
(the guarded block at line 72 is skipped and no exception is raised); a
message with a `data` payload appends exactly one normalized message,
holding the decoded structure on success and the raw payload on a decode
failure, with `type` defaulting to "unknown" and `time` to the empty
string. -/
def cleanWSMessages (jdec : String → Option JsonValue) :
    List WSMessage → List CleanedWS
  | [] => []
  | m :: ms =>
    match m.data with
    | none => cleanWSMessages jdec ms
    | some d =>
      (match jdec d with
       | some v => ⟨m.msgType.getD "unknown", m.time.getD "", v⟩
       | none => ⟨m.msgType.getD "unknown", m.time.getD "", .str d⟩)
        :: cleanWSMessages jdec ms

/-- The WebSocket block (src/har_cleaner.py lines 68-87): run the message
loop when `_webSocketMessages` is present and keep the resulting list only
when it is non-empty. -/
def wsTyped (jdec : String → Option JsonValue) :
    Option (List WSMessage) → Option (List CleanedWS)
  | none => none
  | some ms =>
    if (cleanWSMessages jdec ms).isEmpty then none
    else some (cleanWSMessages jdec ms)

/-- `extract_interesting_content` (src/har_cleaner.py lines 38-89) on a
well-shaped entry: copy the four required fields verbatim and fill the
three conditional fields from their blocks. -/
def extract_interesting_content (jdec : String → Option JsonValue)
    (e : Entry) : CleanedEntry :=
  { url := e.request.url
    method := e.request.method
    status := e.response.status
    startedDateTime := e.startedDateTime
    requestBody := requestBodyTyped jdec e.request.postData
    responseBody := responseBodyTyped jdec e.response.content
    webSocketMessages := wsTyped jdec e.webSocketMessages }

/-- The filtering loop of `clean_har_file` (src/har_cleaner.py lines
96-103): walk the entries in order, keep exactly those whose request URL is
interesting, and append the extracted record for each kept entry. -/
def clean_entries (jdec : String → Option JsonValue) :
    List Entry → List CleanedEntry
  | [] => []
  | e :: es =>
    if is_interesting_url e.request.url then
      extract_interesting_content jdec e :: clean_entries jdec es
    else clean_entries jdec es

/-- Left-inverse of `q - roundHalfEvenQ`: round a rational to the nearest
integer, ties to the even integer, which is the rounding the `%.1f` format
applies. -/
def roundHalfEvenQ (q : ℚ) : ℤ :=
  let f := ⌊q⌋
  if q - f < 1 / 2 then f
  else if 1 / 2 < q - f then f + 1
  else if f % 2 = 0 then f else f + 1

/-- Render a nonnegative number of tenths as a one-decimal string,
e.g. `fmtTenths 823 = "82.3"`. -/
def fmtTenths (m : Nat) : String :=
  toString (m / 10) ++ "." ++ toString (m % 10)

/-- The f-string `"{(1 - kept/orig) * 100:.1f}%"` at line 114, with the
float arithmetic modelled exactly over `ℚ` (the format rounds half to
even, as Python does).  The division by zero Python raises when
`orig = 0` is modelled by the explicit guard in `clean_har_file`, which is
the only caller; negative values cannot arise there because the kept
count never exceeds the original count. -/
def reduction_ratio (kept orig : Nat) : String :=
  let q : ℚ := (1 - (kept : ℚ) / (orig : ℚ)) * 100
  let m : ℤ := roundHalfEvenQ (q * 10)
  (if m < 0 then "-" ++ fmtTenths m.natAbs else fmtTenths m.toNat) ++ "%"

/-- The summary object built at lines 111-115. -/
structure Summary where
  total_entries : Nat
  original_entries : Nat
  reduction_ratio : String

/-- The cleaned document built at lines 106-116 and then serialized. -/
structure CleanedHar where
  version : String
  creator : String
  description : String
  entries : List CleanedEntry
  summary : Summary

/-- `clean_har_file` (src/har_cleaner.py lines 91-123) after the input
document has been read: filter and extract the entries, then build the
output document.  When the input has zero entries, the expression
dividing the kept count by the original count at line 114
raises an uncaught `ZeroDivisionError` while the summary is being built,
so the run aborts and no output file is written; the guard below models
exactly that raise.  `Except.ok` models the run that writes the output
file. -/
def clean_har_file (jdec : String → Option JsonValue)
    (entries : List Entry) : Except PyError CleanedHar :=
  let cleaned := clean_entries jdec entries
  if entries.length = 0 then .error .zeroDivisionError
  else
    .ok { version := "1.0"
          creator := "HAR Cleaner"
          description := "Cleaned HAR file containing only interesting API calls and MCP interactions"
          entries := cleaned
          summary :=
            { total_entries := cleaned.length
              original_entries := entries.length
              reduction_ratio := reduction_ratio cleaned.length entries.length } }

/-!
Dynamic model.  `extract_interesting_content` in the source operates on an
untyped dictionary; the typed `Entry` above captures the shapes the data
model of the specification allows.  To settle whether the extractor can
raise on other shapes (claim C5), the functions below re-embed it over raw
`JsonValue` input, modelling the dynamic semantics of each Python operation
the function performs, with `Except.error` for an uncaught exception.
-/

/-- Python subscription `v[k]` with a string key: a key lookup on a
dictionary (`KeyError` when absent), a `TypeError` on every other value
(lists and strings reject string indices, the rest is not subscriptable). -/
def getItem : JsonValue → String → Except PyError JsonValue
  | .obj fields, k =>
    match fields.lookup k with
    | some v => .ok v
    | none => .error .keyError
  | _, _ => .error .typeError

/-- Python containment `k in v` for a string `k`: key membership on a
dictionary, element equality on a list (a string equals only an equal
string), substring containment on a string, and a `TypeError` on
non-iterable values. -/
def hasKey : JsonValue → String → Except PyError Bool
  | .obj fields, k => .ok (fields.any fun kv => kv.1 == k)
  | .arr xs, k =>
    .ok (xs.any fun x =>
      match x with
      | .str s => s == k
      | _ => false)
  | .str s, k =>
    .ok ((List.range (s.toList.length + 1)).any fun i => chunkAt s.toList k.toList i)
  | _, _ => .error .typeError

/-- Python truthiness of a JSON value. -/
def truthy : JsonValue → Bool
  | .null => false
  | .bool b => b
  | .num n => !(n == 0)
  | .str s => !s.isEmpty
  | .arr xs => !xs.isEmpty
  | .obj fields => !fields.isEmpty

/-- Python iteration `for m in v`: a list yields its elements, a string its
characters, a dictionary its keys; other values raise a `TypeError`. -/
def pyIter : JsonValue → Except PyError (List JsonValue)
  | .arr xs => .ok xs
  | .str s => .ok (s.toList.map fun c => .str (String.singleton c))
  | .obj fields => .ok (fields.map fun kv => .str kv.1)
  | _ => .error .typeError

/-- Python `v.get(k, d)`: defaulting lookup on a dictionary, an
`AttributeError` on every other value. -/
def pyGet : JsonValue → String → JsonValue → Except PyError JsonValue
  | .obj fields, k, d => .ok ((fields.lookup k).getD d)
  | _, _, _ => .error .attributeError

/-- A normalized WebSocket message of the dynamic model: the values stored
under `type`, `time` and `data` (arbitrary values, since `msg.get` copies
whatever is present). -/
structure CleanedWSD where
  msgType : JsonValue
  time : JsonValue
  data : JsonValue

/-- The normalized record of the dynamic model: the four required values
are copied without any type constraint. -/
structure CleanedEntryD where
  url : JsonValue
  method : JsonValue
  status : JsonValue
  startedDateTime : JsonValue
  requestBody : Option JsonValue
  responseBody : Option JsonValue
  webSocketMessages : Option (List CleanedWSD)

/-- The loop body at lines 71-84 for one message: the containment test
for the data key (which itself can raise), then `json.loads` of the
payload — a `TypeError` when the
payload is not a string, a catchable decode failure when it is; the
`except` branch reads `type`, `time` and `data` back with `msg.get`.  A
message without a `data` key appends nothing. -/
def cleanMsg (jdec : String → Option JsonValue) (msg : JsonValue) :
    Except PyError (Option CleanedWSD) :=
  Except.bind (hasKey msg "data") fun hd =>
  if hd then
    Except.bind (getItem msg "data") fun d =>
    match d with
    | .str s =>
      match jdec s with
      | some v =>
        Except.bind (pyGet msg "type" (.str "unknown")) fun ty =>
        Except.bind (pyGet msg "time" (.str "")) fun tm =>
        .ok (some ⟨ty, tm, v⟩)
      | none =>
        Except.bind (pyGet msg "type" (.str "unknown")) fun ty =>
        Except.bind (pyGet msg "time" (.str "")) fun tm =>
        Except.bind (pyGet msg "data" (.str "")) fun dd =>
        .ok (some ⟨ty, tm, dd⟩)
    | _ => .error .typeError
  else .ok none

/-- One iteration of the message loop: run the body and append its result
to the accumulated `messages` list. -/
def wsStep (jdec : String → Option JsonValue) (acc : List CleanedWSD)
    (msg : JsonValue) : Except PyError (List CleanedWSD) :=
  Except.bind (cleanMsg jdec msg) fun r =>
  .ok (match r with
       | some c => acc ++ [c]
       | none => acc)

/-- The request-body block (lines 48-53) over a raw `request` value,
including the `TypeError` raised by `json.loads` on a non-string payload
(that exception is not a `JSONDecodeError`, so the `except` at line 52
does not catch it). -/
def requestBodySection (jdec : String → Option JsonValue)
    (req : JsonValue) : Except PyError (Option JsonValue) :=
  Except.bind (hasKey req "postData") fun hpd =>
  if hpd then
    Except.bind (getItem req "postData") fun pd =>
    Except.bind (hasKey pd "text") fun ht =>
    if ht then
      Except.bind (getItem pd "text") fun t =>
      match t with
      | .str s =>
        match jdec s with
        | some v => .ok (some v)
        | none => .ok (some (.str s))
      | _ => .error .typeError
    else .ok none
  else .ok none

/-- The response-body block (lines 56-65) over a raw `response` value: the
truthiness test guards the decode, and a non-string truthy payload makes
`json.loads` raise an uncaught `TypeError`. -/
def responseBodySection (jdec : String → Option JsonValue)
    (resp : JsonValue) : Except PyError (Option JsonValue) :=
  Except.bind (hasKey resp "content") fun hc =>
  if hc then
    Except.bind (getItem resp "content") fun c =>
    Except.bind (hasKey c "text") fun ht =>
    if ht then
      Except.bind (getItem c "text") fun t =>
      if truthy t then
        match t with
        | .str s =>
          match jdec s with
          | some v => .ok (some v)
          | none => .ok (if s.length < 10000 then some (.str s) else none)
        | _ => .error .typeError
      else .ok none
    else .ok none
  else .ok none

/-- The WebSocket block (lines 68-87) over the raw entry: iterate whatever
is stored under `_webSocketMessages` (a `TypeError` if it is not
iterable), run the loop, and keep the result only when non-empty. -/
def wsSection (jdec : String → Option JsonValue) (entry : JsonValue) :
    Except PyError (Option (List CleanedWSD)) :=
  Except.bind (hasKey entry "_webSocketMessages") fun hws =>
  if hws then
    Except.bind (getItem entry "_webSocketMessages") fun wsv =>
    Except.bind (pyIter wsv) fun msgs =>
    Except.bind (List.foldlM (wsStep jdec) [] msgs) fun messages =>
    .ok (if messages.isEmpty then none else some messages)
  else .ok none

/-- `extract_interesting_content` over a raw entry value, in the order the
source evaluates: the four required lookups of lines 40-45 (each able to
raise `KeyError` or `TypeError`), then the three conditional blocks. -/
def extract_py (jdec : String → Option JsonValue) (entry : JsonValue) :
    Except PyError CleanedEntryD :=
  Except.bind (getItem entry "request") fun req =>
  Except.bind (getItem req "url") fun url =>
  Except.bind (getItem req "method") fun method =>
  Except.bind (getItem entry "response") fun resp =>
  Except.bind (getItem resp "status") fun status =>
  Except.bind (getItem entry "startedDateTime") fun started =>
  Except.bind (requestBodySection jdec req) fun requestBody =>
  Except.bind (responseBodySection jdec resp) fun responseBody =>
  Except.bind (wsSection jdec entry) fun wsMsgs =>
  .ok ⟨url, method, status, started, requestBody, responseBody, wsMsgs⟩

/-- Encode a typed WebSocket message as the dictionary the HAR file holds:
each of the optional keys is present exactly when the field is `some`. -/
def encodeMsg (m : WSMessage) : JsonValue :=
  .obj ((match m.msgType with
         | none => []
         | some s => [("type", JsonValue.str s)]) ++
        (match m.time with
         | none => []
         | some s => [("time", JsonValue.str s)]) ++
        (match m.data with
         | none => []
         | some s => [("data", JsonValue.str s)]))

/-- Encode a typed request as its HAR dictionary. -/
def encodeRequest (r : Request) : JsonValue :=
  .obj ([("url", JsonValue.str r.url), ("method", JsonValue.str r.method)] ++
        (match r.postData with
         | none => []
         | some pd =>
           [("postData",
             JsonValue.obj (match pd.text with
                            | none => []
                            | some t => [("text", JsonValue.str t)]))]))

/-- Encode a typed response as its HAR dictionary. -/
def encodeResponse (r : Response) : JsonValue :=
  .obj ([("status", JsonValue.num r.status)] ++
        (match r.content with
         | none => []
         | some c =>
           [("content",
             JsonValue.obj (match c.text with
                            | none => []
                            | some t => [("text", JsonValue.str t)]))]))

/-- Encode a typed entry as its HAR dictionary. -/
def encodeEntry (e : Entry) : JsonValue :=
  .obj ([("request", encodeRequest e.request),
         ("response", encodeResponse e.response),
         ("startedDateTime", JsonValue.str e.startedDateTime)] ++
        (match e.webSocketMessages with
         | none => []
         | some ms => [("_webSocketMessages", JsonValue.arr (ms.map encodeMsg))]))

/-- Encode a typed normalized message as its dynamic counterpart. -/
def encodeCleanedWS (c : CleanedWS) : CleanedWSD :=
  ⟨JsonValue.str c.msgType, JsonValue.str c.time, c.data⟩

/-- Encode a typed normalized record as its dynamic counterpart. -/
def encodeCleaned (c : CleanedEntry) : CleanedEntryD :=
  ⟨JsonValue.str c.url, JsonValue.str c.method, JsonValue.num c.status,
   JsonValue.str c.startedDateTime, c.requestBody, c.responseBody,
   c.webSocketMessages.map (List.map encodeCleanedWS)⟩

/-- What the message loop does to one message, as a function: nothing for
a message without a `data` payload, exactly one normalized message
otherwise. -/
def normMsg (jdec : String → Option JsonValue) (m : WSMessage) :
    Option CleanedWS :=
  match m.data with
  | none => none
  | some d =>
    some (match jdec d with
          | some v => ⟨m.msgType.getD "unknown", m.time.getD "", v⟩
          | none => ⟨m.msgType.getD "unknown", m.time.getD "", .str d⟩)

/-- A decoder that fails on every string (any concrete behaviour of
`json.loads` restricted to the strings a test exercises can be realised by
some decoder; this one realises uniform decode failure). -/
def jdec0 : String → Option JsonValue := fun _ => none

/-- A decoder that succeeds on the single string "okjson". -/
def jdec1 : String → Option JsonValue :=
  fun s => if s = "okjson" then some (.obj [("ok", .bool true)]) else none

/-- A concrete entry with undecodable request and response texts. -/
def e3 : Entry :=
  ⟨⟨"u", "POST", some ⟨some "notjson"⟩⟩, ⟨200, some ⟨some "alsoraw"⟩⟩,
   "t0", none⟩

/-- A concrete entry whose response text the decoder `jdec1` accepts. -/
def e10 : Entry :=
  ⟨⟨"u", "GET", none⟩, ⟨200, some ⟨some "okjson"⟩⟩, "t0", none⟩

/-- An entry whose request payload text is present but empty. -/
def e8 : Entry :=
  ⟨⟨"u", "POST", some ⟨some ""⟩⟩, ⟨200, none⟩, "t0", none⟩

/-- A WebSocket message that carries `type` and `time` but no `data`. -/
def m4 : WSMessage := ⟨some "send", some "t1", none⟩

/-- An entry whose WebSocket list holds exactly one message without a
`data` payload. -/
def e4 : Entry :=
  ⟨⟨"wss://x/mcp", "GET", none⟩, ⟨101, none⟩, "t0", some [m4]⟩

/-- A raw entry that exposes all required nested fields but stores the
number 3 under `request.postData.text`. -/
def eBad : JsonValue :=
  .obj [("request",
         .obj [("url", .str "https://anthropic.com/api/v1/chat"),
               ("method", .str "POST"),
               ("postData", .obj [("text", .num 3)])]),
        ("response", .obj [("status", .num 200)]),
        ("startedDateTime", .str "t0")]

/-- An entry whose URL matches no pattern at all. -/
def eDull : Entry := ⟨⟨"x", "GET", none⟩, ⟨200, none⟩, "t0", none⟩

/-- The output document produced from the one-entry input `[eDull]`. -/
def outDull : CleanedHar :=
  ⟨"1.0", "HAR Cleaner",
   "Cleaned HAR file containing only interesting API calls and MCP interactions",
   [], ⟨0, 1, reduction_ratio 0 1⟩⟩

example : is_interesting_url "https://anthropic.com/static/app.js" = false := by rfl
example : is_interesting_url "https://rtm-mcp-server.vcto-6e7.workers.dev/api/v1/mcp/connect" = true := by rfl
example : is_interesting_url "https://example.com/about" = false := by rfl

/-- Rounding an integer-valued rational is the identity. -/
theorem roundHalfEvenQ_intCast (n : ℤ) : roundHalfEvenQ (n : ℚ) = n := by
  simp [roundHalfEvenQ]

example : reduction_ratio 0 10 = "100.0%" := by
  have h : (1 - ((0:ℕ):ℚ) / ((10:ℕ):ℚ)) * 100 * 10 = ((1000:ℤ):ℚ) := by norm_num
  simp only [reduction_ratio]
  rw [h, roundHalfEvenQ_intCast]
  decide

example : reduction_ratio 10 10 = "0.0%" := by
  have h : (1 - ((10:ℕ):ℚ) / ((10:ℕ):ℚ)) * 100 * 10 = ((0:ℤ):ℚ) := by norm_num
  simp only [reduction_ratio]
  rw [h, roundHalfEvenQ_intCast]
  decide

/-- The dynamic loop body agrees with the typed one on every encoded
message: a message without a payload yields nothing, one with a payload
yields its typed normalization. -/
theorem cleanMsg_encode (jdec : String → Option JsonValue) (m : WSMessage) :
    cleanMsg jdec (encodeMsg m) =
      Except.ok ((normMsg jdec m).map encodeCleanedWS) := by
  obtain ⟨ty, tm, dt⟩ := m
  rcases dt with _ | d
  · rcases ty with _ | a <;> rcases tm with _ | b <;> rfl
  · rcases ty with _ | a <;> rcases tm with _ | b <;> cases hd : jdec d <;>
      simp [cleanMsg, encodeMsg, hasKey, getItem, pyGet, hd, encodeCleanedWS,
        Except.bind, List.lookup, List.any, normMsg]

/-- The typed message loop is the `filterMap` of `normMsg`. -/
theorem cleanWSMessages_eq_filterMap (jdec : String → Option JsonValue)
    (ms : List WSMessage) :
    cleanWSMessages jdec ms = ms.filterMap (normMsg jdec) := by
  induction ms with
  | nil => rfl
  | cons m rest ih =>
    rcases m with ⟨ty, tm, _ | d⟩
    · simpa [cleanWSMessages, normMsg, List.filterMap_cons] using ih
    · cases hd : jdec d <;>
        simp [cleanWSMessages, normMsg, List.filterMap_cons, hd, ih]

/-- Running the dynamic message loop over a list of encoded messages never
raises, and accumulates exactly the encodings of the typed loop output. -/
theorem ws_fold_encode (jdec : String → Option JsonValue)
    (ms : List WSMessage) :
    ∀ acc : List CleanedWSD,
      List.foldlM (wsStep jdec) acc (ms.map encodeMsg) =
        Except.ok (acc ++ (cleanWSMessages jdec ms).map encodeCleanedWS) := by
  induction ms with
  | nil =>
    intro acc
    rw [List.map_nil, List.foldlM_nil]
    show Except.ok acc = _
    rw [cleanWSMessages, List.map_nil, List.append_nil]
  | cons m rest ih =>
    intro acc
    have hms : cleanWSMessages jdec (m :: rest) =
        match normMsg jdec m with
        | none => cleanWSMessages jdec rest
        | some c => c :: cleanWSMessages jdec rest := by
      simp only [cleanWSMessages_eq_filterMap]
      cases hnm : normMsg jdec m <;> simp [List.filterMap_cons, hnm]
    cases hm : normMsg jdec m with
    | none =>
      have hstep : wsStep jdec acc (encodeMsg m) = Except.ok acc := by
        rw [wsStep, cleanMsg_encode, hm]; rfl
      rw [List.map_cons, List.foldlM_cons, hstep]
      show List.foldlM (wsStep jdec) acc (rest.map encodeMsg) = _
      rw [ih acc, hms, hm]
    | some c =>
      have hstep : wsStep jdec acc (encodeMsg m) =
          Except.ok (acc ++ [encodeCleanedWS c]) := by
        rw [wsStep, cleanMsg_encode, hm]; rfl
      rw [List.map_cons, List.foldlM_cons, hstep]
      show List.foldlM (wsStep jdec) (acc ++ [encodeCleanedWS c])
          (rest.map encodeMsg) = _
      rw [ih (acc ++ [encodeCleanedWS c]), hms, hm]
      simp

/-- The dynamic request-body block never raises on an encoded typed
request and computes the typed request body. -/
theorem requestBodySection_encode (jdec : String → Option JsonValue)
    (r : Request) :
    requestBodySection jdec (encodeRequest r) =
      Except.ok (requestBodyTyped jdec r.postData) := by
  obtain ⟨url, method, pd⟩ := r
  rcases pd with _ | ⟨_ | t⟩
  · rfl
  · rfl
  · show (match jdec t with
          | some v => Except.ok (some v)
          | none => Except.ok (some (JsonValue.str t))) =
        Except.ok (match jdec t with
                   | some v => some v
                   | none => some (JsonValue.str t))
    cases jdec t <;> rfl

/-- The dynamic response-body block never raises on an encoded typed
response and computes the typed response body. -/
theorem responseBodySection_encode (jdec : String → Option JsonValue)
    (r : Response) :
    responseBodySection jdec (encodeResponse r) =
      Except.ok (responseBodyTyped jdec r.content) := by
  obtain ⟨status, cont⟩ := r
  rcases cont with _ | ⟨_ | t⟩
  · rfl
  · rfl
  · show (if !t.isEmpty then
            (match jdec t with
             | some v => Except.ok (some v)
             | none =>
               Except.ok (if t.length < 10000 then some (JsonValue.str t) else none))
          else Except.ok none) =
        Except.ok (if t.isEmpty then none
                   else match jdec t with
                        | some v => some v
                        | none =>
                          if t.length < 10000 then some (JsonValue.str t) else none)
    cases ht : t.isEmpty
    · cases jdec t <;> rfl
    · rfl

/-- The dynamic WebSocket block never raises on an encoded typed entry and
computes the encoding of the typed WebSocket field. -/
theorem wsSection_encode (jdec : String → Option JsonValue) (e : Entry) :
    wsSection jdec (encodeEntry e) =
      Except.ok ((wsTyped jdec e.webSocketMessages).map (List.map encodeCleanedWS)) := by
  obtain ⟨req, resp, sdt, ws⟩ := e
  rcases ws with _ | ms
  · rfl
  · show Except.bind (List.foldlM (wsStep jdec) [] (ms.map encodeMsg))
        (fun messages =>
          Except.ok (if messages.isEmpty then none else some messages)) = _
    rw [ws_fold_encode jdec ms []]
    show Except.ok
        (if ((cleanWSMessages jdec ms).map encodeCleanedWS).isEmpty then none
         else some ((cleanWSMessages jdec ms).map encodeCleanedWS)) = _
    cases hc : cleanWSMessages jdec ms <;> simp [wsTyped, hc]

/-- Claim C5 as amended: on every entry that exposes the required nested
fields and whose optional request body, response body and WebSocket
message fields conform to the data model (textual payloads, messages as
objects with textual payloads), the extractor always succeeds and never
raises, for every decoder — and it computes exactly the typed
normalization.  (As stated, over arbitrary shapes of the optional fields,
the claim is false: see the counterexample, where a non-textual request
payload makes `json.loads` raise an uncaught `TypeError`.) -/
theorem claim_C5_extract_total_amended (jdec : String → Option JsonValue) (e : Entry) :
    extract_py jdec (encodeEntry e) =
      Except.ok (encodeCleaned (extract_interesting_content jdec e)) := by
  show Except.bind (requestBodySection jdec (encodeRequest e.request)) (fun rb =>
       Except.bind (responseBodySection jdec (encodeResponse e.response)) (fun sb =>
       Except.bind (wsSection jdec (encodeEntry e)) (fun wm =>
       Except.ok (⟨JsonValue.str e.request.url, JsonValue.str e.request.method,
                   JsonValue.num e.response.status, JsonValue.str e.startedDateTime,
                   rb, sb, wm⟩ : CleanedEntryD)))) =
      Except.ok (encodeCleaned (extract_interesting_content jdec e))
  rw [requestBodySection_encode, responseBodySection_encode, wsSection_encode]
  rfl

/-- The filtering loop is the order-preserving filter-then-map of the
entry list. -/
theorem clean_entries_eq (jdec : String → Option JsonValue)
    (entries : List Entry) :
    clean_entries jdec entries =
      (entries.filter fun e => is_interesting_url e.request.url).map
        (extract_interesting_content jdec) := by
  induction entries with
  | nil => rfl
  | cons e es ih =>
    cases hi : is_interesting_url e.request.url <;>
      simp [clean_entries, List.filter_cons, hi, ih]

/-- Claim C1: for every URL string, `is_interesting_url` returns `true`
exactly when the URL matches at least one interest pattern and no noise
pattern (so a URL matching a noise pattern yields `false` even if an
interest pattern also matches, and a URL matching neither yields
`false`); in particular the noisy vendor URL of the specification is
rejected. -/
theorem claim_C1_classifier_noise_precedence :
    (∀ url, is_interesting_url url = true ↔
      ((∃ p ∈ interesting_patterns, reSearch p url = true) ∧
       ∀ p ∈ noise_patterns, reSearch p url = false)) ∧
    is_interesting_url "https://anthropic.com/static/app.js" = false := by
  constructor
  · intro url
    by_cases hn : noise_patterns.any (fun p => reSearch p url) = true
    · rw [is_interesting_url, if_pos hn]
      simp only [List.any_eq_true] at hn
      obtain ⟨p, hp, hr⟩ := hn
      constructor
      · intro h; exact absurd h (by decide)
      · rintro ⟨-, hall⟩
        have hfalse := hall p hp
        rw [hr] at hfalse
        exact absurd hfalse (by decide)
    · rw [is_interesting_url, if_neg hn]
      have hall : ∀ p ∈ noise_patterns, reSearch p url = false := by
        intro p hp
        cases hb : reSearch p url
        · rfl
        · exact absurd (List.any_eq_true.mpr ⟨p, hp, hb⟩) hn
      simp only [List.any_eq_true]
      exact ⟨fun h => ⟨h, hall⟩, fun h => h.1⟩
  · rfl

/-- Claim C2: a normalized record appears in the output entries exactly
for the source entries whose request URL the classifier accepts, in the
same relative order, with no reordering and no deduplication — the kept
sequence is literally the filter of the input followed by the extraction
map, both for the loop itself and for the entries of a successfully
produced output document. -/
theorem claim_C2_order_preserving_filter :
    (∀ (jdec : String → Option JsonValue) (entries : List Entry),
      clean_entries jdec entries =
        (entries.filter fun e => is_interesting_url e.request.url).map
          (extract_interesting_content jdec)) ∧
    (∀ (jdec : String → Option JsonValue) (entries : List Entry)
        (out : CleanedHar),
      clean_har_file jdec entries = Except.ok out →
      out.entries =
        (entries.filter fun e => is_interesting_url e.request.url).map
          (extract_interesting_content jdec)) := by
  constructor
  · exact clean_entries_eq
  · intro jdec entries out h
    simp only [clean_har_file] at h
    split at h
    · exact absurd h (by simp)
    · injection h with h
      subst h
      exact clean_entries_eq jdec entries

/-- Claim C3: a textual request payload that fails to decode is stored as
raw text unmodified, whatever its length; a non-empty textual response
payload that fails to decode is stored as raw text exactly when its length
is strictly below 10000 characters and otherwise the response body field
is omitted from the record. -/
theorem claim_C3_raw_fallback_size_asymmetry :
    ∀ (jdec : String → Option JsonValue) (e : Entry) (t : String),
      (e.request.postData = some ⟨some t⟩ → jdec t = none →
        (extract_interesting_content jdec e).requestBody =
          some (JsonValue.str t)) ∧
      (e.response.content = some ⟨some t⟩ → t.isEmpty = false →
        jdec t = none →
        (extract_interesting_content jdec e).responseBody =
          (if t.length < 10000 then some (JsonValue.str t) else none)) := by
  intro jdec e t
  constructor
  · intro hpd hj
    show requestBodyTyped jdec e.request.postData = some (JsonValue.str t)
    rw [hpd]
    simp [requestBodyTyped, hj]
  · intro hc ht hj
    show responseBodyTyped jdec e.response.content =
      (if t.length < 10000 then some (JsonValue.str t) else none)
    rw [hc]
    simp [responseBodyTyped, ht, hj]

/-- Witness for claim C3 at a concrete entry and decoder. -/
theorem claim_C3_witness :
    (extract_interesting_content jdec0 e3).requestBody =
      some (JsonValue.str "notjson") ∧
    (extract_interesting_content jdec0 e3).responseBody =
      (if ("alsoraw" : String).length < 10000
       then some (JsonValue.str "alsoraw") else none) :=
  ⟨(claim_C3_raw_fallback_size_asymmetry jdec0 e3 "notjson").1 rfl rfl,
   (claim_C3_raw_fallback_size_asymmetry jdec0 e3 "alsoraw").2 rfl rfl rfl⟩

/-- Claim C10: a non-empty textual response payload that decodes
successfully is stored as the decoded structure with no length condition:
the 10000-character threshold only governs the decode-failure fallback. -/
theorem claim_C10_parsed_response_unbounded :
    ∀ (jdec : String → Option JsonValue) (e : Entry) (t : String)
      (v : JsonValue),
      e.response.content = some ⟨some t⟩ → t.isEmpty = false →
      jdec t = some v →
      (extract_interesting_content jdec e).responseBody = some v := by
  intro jdec e t v hc ht hj
  show responseBodyTyped jdec e.response.content = some v
  rw [hc]
  simp [responseBodyTyped, ht, hj]

/-- Witness for claim C10 at a concrete entry and decoder. -/
theorem claim_C10_witness :
    (extract_interesting_content jdec1 e10).responseBody =
      some (JsonValue.obj [("ok", JsonValue.bool true)]) :=
  claim_C10_parsed_response_unbounded jdec1 e10 "okjson"
    (JsonValue.obj [("ok", JsonValue.bool true)]) rfl rfl rfl

/-- Counterexample to claim C8 as stated: the source request text is
present but empty (so the empty string fails every JSON decode), yet the
record still carries a request body field holding that empty raw text —
a present-but-empty source field does produce an output field. -/
theorem claim_C8_counterexample :
    e8.request.postData = some ⟨some ""⟩ ∧
    String.isEmpty "" = true ∧
    (extract_interesting_content jdec0 e8).requestBody =
      some (JsonValue.str "") :=
  ⟨rfl, rfl, rfl⟩

/-- Claim C8 as amended: the response body and WebSocket fields are
present only when the corresponding source data is present and non-empty,
but the request body field is present exactly when the source text key is
present, including when the text is empty. -/
theorem claim_C8_optional_fields_amended :
    ∀ (jdec : String → Option JsonValue) (e : Entry),
      ((extract_interesting_content jdec e).requestBody.isSome = true →
        ∃ pd, e.request.postData = some pd ∧ pd.text.isSome = true) ∧
      ((extract_interesting_content jdec e).responseBody.isSome = true →
        ∃ t, e.response.content = some ⟨some t⟩ ∧ t.isEmpty = false) ∧
      ((extract_interesting_content jdec e).webSocketMessages.isSome = true →
        ∃ ms, e.webSocketMessages = some ms ∧ ms ≠ []) ∧
      (∀ t, e.request.postData = some ⟨some t⟩ →
        (extract_interesting_content jdec e).requestBody.isSome = true) := by
  intro jdec e
  refine ⟨?_, ?_, ?_, ?_⟩
  · intro h
    rw [show (extract_interesting_content jdec e).requestBody =
        requestBodyTyped jdec e.request.postData from rfl] at h
    rcases hpd : e.request.postData with _ | ⟨_ | t⟩
    · rw [hpd] at h; simp [requestBodyTyped] at h
    · rw [hpd] at h; simp [requestBodyTyped] at h
    · exact ⟨⟨some t⟩, rfl, rfl⟩
  · intro h
    rw [show (extract_interesting_content jdec e).responseBody =
        responseBodyTyped jdec e.response.content from rfl] at h
    rcases hc : e.response.content with _ | ⟨_ | t⟩
    · rw [hc] at h; simp [responseBodyTyped] at h
    · rw [hc] at h; simp [responseBodyTyped] at h
    · cases hE : t.isEmpty
      · exact ⟨t, rfl, hE⟩
      · rw [hc] at h; simp [responseBodyTyped, hE] at h
  · intro h
    rw [show (extract_interesting_content jdec e).webSocketMessages =
        wsTyped jdec e.webSocketMessages from rfl] at h
    rcases hws : e.webSocketMessages with _ | ms
    · rw [hws] at h; simp [wsTyped] at h
    · rcases ms with _ | ⟨m, rest⟩
      · rw [hws] at h; simp [wsTyped, cleanWSMessages] at h
      · exact ⟨m :: rest, rfl, by simp⟩
  · intro t hpd
    show (requestBodyTyped jdec e.request.postData).isSome = true
    rw [hpd]
    cases hj : jdec t <;> simp [requestBodyTyped, hj]

/-- Witness for the amended claim C8: applying it at the empty-text entry
shows the request body field present. -/
theorem claim_C8_witness :
    (extract_interesting_content jdec0 e8).requestBody.isSome = true :=
  (claim_C8_optional_fields_amended jdec0 e8).2.2.2 "" rfl

/-- Counterexample to claim C4 as stated: the entry carries one WebSocket
message, but because that message has no `data` key the loop appends
nothing for it — it does not produce a normalized message with empty
payload text — and the WebSocket field is omitted although the source
sequence was non-empty. -/
theorem claim_C4_counterexample :
    e4.webSocketMessages = some [m4] ∧ m4.data = none ∧
    (extract_interesting_content jdec0 e4).webSocketMessages = none :=
  ⟨rfl, rfl, rfl⟩

/-- Claim C4 as amended: each WebSocket message carrying a `data` payload
produces, in arrival order, exactly one normalized message of shape
type/time/data — the decoded structure when the payload parses and the
raw payload text otherwise, with a missing type defaulting to "unknown"
and a missing time to empty text (this is `normMsg`) — while messages
without a `data` payload are skipped entirely; the WebSocket field is
omitted exactly when the resulting message list is empty. -/
theorem claim_C4_websocket_amended :
    ∀ (jdec : String → Option JsonValue) (e : Entry),
      (∀ ms, e.webSocketMessages = some ms →
        (extract_interesting_content jdec e).webSocketMessages =
          (if (ms.filterMap (normMsg jdec)).isEmpty then none
           else some (ms.filterMap (normMsg jdec)))) ∧
      (e.webSocketMessages = none →
        (extract_interesting_content jdec e).webSocketMessages = none) := by
  intro jdec e
  constructor
  · intro ms hws
    show wsTyped jdec e.webSocketMessages = _
    rw [hws]
    show (if (cleanWSMessages jdec ms).isEmpty then none
          else some (cleanWSMessages jdec ms)) = _
    rw [cleanWSMessages_eq_filterMap]
  · intro hws
    show wsTyped jdec e.webSocketMessages = none
    rw [hws]
    rfl

/-- Witness for the amended claim C4 at the concrete one-message entry. -/
theorem claim_C4_witness :
    (extract_interesting_content jdec0 e4).webSocketMessages =
      (if ([m4].filterMap (normMsg jdec0)).isEmpty then none
       else some ([m4].filterMap (normMsg jdec0))) :=
  (claim_C4_websocket_amended jdec0 e4).1 [m4] rfl

/-- Counterexample to claim C5 as stated: `eBad` exposes `request.url`,
`request.method`, `response.status` and `startedDateTime`, so it is in the
domain the claim quantifies over, and its only unusual feature is the
shape of the optional request payload — yet extraction raises an uncaught
`TypeError` (from `json.loads` applied to a non-string) instead of
succeeding. -/
theorem claim_C5_counterexample :
    (Except.bind (getItem eBad "request") fun r => getItem r "url") =
      Except.ok (JsonValue.str "https://anthropic.com/api/v1/chat") ∧
    (Except.bind (getItem eBad "request") fun r => getItem r "method") =
      Except.ok (JsonValue.str "POST") ∧
    (Except.bind (getItem eBad "response") fun r => getItem r "status") =
      Except.ok (JsonValue.num 200) ∧
    getItem eBad "startedDateTime" = Except.ok (JsonValue.str "t0") ∧
    extract_py jdec0 eBad = Except.error PyError.typeError :=
  ⟨rfl, rfl, rfl, rfl, rfl⟩

/-- Claim C6: on an input document with zero entries the run aborts before
any output is produced — but not through a dedicated, explicitly guarded
EmptyInput error: the abort is the unguarded `ZeroDivisionError` raised by
the reduction-ratio computation, and every failing run fails with that
`ZeroDivisionError`, never with the dedicated EmptyInput error the
specification demands. -/
theorem claim_C6_zero_entries_division_by_zero :
    ∀ jdec : String → Option JsonValue,
      clean_har_file jdec [] = Except.error PyError.zeroDivisionError ∧
      ∀ entries e, clean_har_file jdec entries = Except.error e →
        e = PyError.zeroDivisionError := by
  intro jdec
  refine ⟨rfl, ?_⟩
  intro entries e h
  simp only [clean_har_file] at h
  split at h
  · injection h with h
    exact h.symm
  · exact Except.noConfusion h

/-- Witness for claim C6 at the empty input. -/
theorem claim_C6_witness :
    clean_har_file jdec0 [] = Except.error PyError.zeroDivisionError ∧
    PyError.zeroDivisionError = PyError.zeroDivisionError :=
  ⟨(claim_C6_zero_entries_division_by_zero jdec0).1,
   (claim_C6_zero_entries_division_by_zero jdec0).2 [] PyError.zeroDivisionError rfl⟩

/-- Witness for claim C2 at a concrete one-entry run. -/
theorem claim_C2_witness :
    outDull.entries =
      ([eDull].filter fun e => is_interesting_url e.request.url).map
        (extract_interesting_content jdec0) :=
  claim_C2_order_preserving_filter.2 jdec0 [eDull] outDull rfl

/-- Claim C9: for every input with at least one entry that yields an
output document, the summary total equals the length of the emitted
entries array, never exceeds the original count, and the reduction-ratio
value lies between 0 and 100. -/
theorem claim_C9_summary_bounds :
    ∀ (jdec : String → Option JsonValue) (entries : List Entry)
      (out : CleanedHar),
      clean_har_file jdec entries = Except.ok out →
      out.summary.total_entries = out.entries.length ∧
      out.summary.total_entries ≤ out.summary.original_entries ∧
      0 ≤ (1 - (out.summary.total_entries : ℚ) /
        (out.summary.original_entries : ℚ)) * 100 ∧
      (1 - (out.summary.total_entries : ℚ) /
        (out.summary.original_entries : ℚ)) * 100 ≤ 100 := by
  intro jdec entries out h
  simp only [clean_har_file] at h
  split at h
  · exact absurd h (by simp)
  next hne =>
    injection h with h
    subst h
    have hlen : (clean_entries jdec entries).length ≤ entries.length := by
      rw [clean_entries_eq, List.length_map]
      exact List.length_filter_le _ _
    have hn : 0 < entries.length := Nat.pos_of_ne_zero hne
    have hdn : (0:ℚ) < (entries.length : ℚ) := by exact_mod_cast hn
    have h1 : ((clean_entries jdec entries).length : ℚ) /
        (entries.length : ℚ) ≤ 1 := by
      rw [div_le_one hdn]
      exact_mod_cast hlen
    have h0 : 0 ≤ ((clean_entries jdec entries).length : ℚ) /
        (entries.length : ℚ) := by positivity
    refine ⟨rfl, hlen, ?_, ?_⟩
    · show 0 ≤ (1 - ((clean_entries jdec entries).length : ℚ) /
        (entries.length : ℚ)) * 100
      nlinarith
    · show (1 - ((clean_entries jdec entries).length : ℚ) /
        (entries.length : ℚ)) * 100 ≤ 100
      nlinarith

/-- Witness for claim C9 at the concrete one-entry run. -/
theorem claim_C9_witness :
    outDull.summary.total_entries = outDull.entries.length ∧
    outDull.summary.total_entries ≤ outDull.summary.original_entries ∧
    0 ≤ (1 - (outDull.summary.total_entries : ℚ) /
      (outDull.summary.original_entries : ℚ)) * 100 ∧
    (1 - (outDull.summary.total_entries : ℚ) /
      (outDull.summary.original_entries : ℚ)) * 100 ≤ 100 :=
  claim_C9_summary_bounds jdec0 [eDull] outDull rfl

/-- Round-half-even never moves a rational by more than one half. -/
theorem roundHalfEvenQ_close (x : ℚ) :
    |x - (roundHalfEvenQ x : ℚ)| ≤ 1 / 2 := by
  have h0 := Int.floor_le x
  have h1 := Int.lt_floor_add_one x
  simp only [roundHalfEvenQ]
  split_ifs with h2 h3 h4
  · rw [abs_le]; constructor <;> linarith
  · rw [abs_le]; push_cast; constructor <;> linarith
  · push_neg at h2 h3
    rw [abs_le]; constructor <;> linarith
  · push_neg at h2 h3
    rw [abs_le]; push_cast; constructor <;> linarith

/-- Round-half-even of a nonnegative rational is nonnegative. -/
theorem roundHalfEvenQ_nonneg (x : ℚ) (hx : 0 ≤ x) :
    0 ≤ roundHalfEvenQ x := by
  have h0 : (0:ℤ) ≤ ⌊x⌋ := Int.floor_nonneg.mpr hx
  simp only [roundHalfEvenQ]
  split_ifs <;> omega

/-- Claim C7: for kept count `k` and original count `n > 0` (with
`k ≤ n`, as in every run of the program), the summary ratio is the value
`(1 - k/n) * 100` formatted to one decimal place followed by a percent
sign — made precise as: the emitted string renders an integer number `m`
of tenths whose value `m/10` differs from the exact ratio by at most half
of the last printed digit — and in particular the two boundary instances
of the specification hold. -/
theorem claim_C7_reduction_ratio_format :
    (∀ k n : ℕ, 0 < n → k ≤ n →
      ∃ m : ℕ,
        reduction_ratio k n =
          toString (m / 10) ++ "." ++ toString (m % 10) ++ "%" ∧
        |(1 - (k : ℚ) / (n : ℚ)) * 100 - (m : ℚ) / 10| ≤ 1 / 20) ∧
    reduction_ratio 0 10 = "100.0%" ∧ reduction_ratio 10 10 = "0.0%" := by
  refine ⟨?_, ?_, ?_⟩
  · intro k n hn hk
    have hdn : (0:ℚ) < (n : ℚ) := by exact_mod_cast hn
    have hk1 : (k:ℚ)/(n:ℚ) ≤ 1 := by
      rw [div_le_one hdn]; exact_mod_cast hk
    have hq0 : 0 ≤ (1 - (k : ℚ) / (n : ℚ)) * 100 := by nlinarith
    have hm0 : 0 ≤ roundHalfEvenQ ((1 - (k : ℚ) / (n : ℚ)) * 100 * 10) :=
      roundHalfEvenQ_nonneg _ (by positivity)
    refine ⟨(roundHalfEvenQ ((1 - (k : ℚ) / (n : ℚ)) * 100 * 10)).toNat,
      ?_, ?_⟩
    · show (if roundHalfEvenQ ((1 - (k : ℚ) / (n : ℚ)) * 100 * 10) < 0
            then "-" ++ fmtTenths
              (roundHalfEvenQ ((1 - (k : ℚ) / (n : ℚ)) * 100 * 10)).natAbs
            else fmtTenths
              (roundHalfEvenQ ((1 - (k : ℚ) / (n : ℚ)) * 100 * 10)).toNat)
          ++ "%" = _
      rw [if_neg (not_lt.mpr hm0)]
      rfl
    · have hclose := roundHalfEvenQ_close ((1 - (k : ℚ) / (n : ℚ)) * 100 * 10)
      have hcast :
          (((roundHalfEvenQ ((1 - (k : ℚ) / (n : ℚ)) * 100 * 10)).toNat : ℕ) : ℚ) =
            ((roundHalfEvenQ ((1 - (k : ℚ) / (n : ℚ)) * 100 * 10) : ℤ) : ℚ) := by
        exact_mod_cast Int.toNat_of_nonneg hm0
      rw [hcast]
      rw [abs_le] at hclose ⊢
      constructor <;> [linarith [hclose.1]; linarith [hclose.2]]
  · have h : (1 - ((0:ℕ):ℚ) / ((10:ℕ):ℚ)) * 100 * 10 = ((1000:ℤ):ℚ) := by
      norm_num
    simp only [reduction_ratio]
    rw [h, roundHalfEvenQ_intCast]
    decide
  · have h : (1 - ((10:ℕ):ℚ) / ((10:ℕ):ℚ)) * 100 * 10 = ((0:ℤ):ℚ) := by
      norm_num
    simp only [reduction_ratio]
    rw [h, roundHalfEvenQ_intCast]
    decide

/-- Witness for claim C7 at kept 3 of 10 original entries. -/
theorem claim_C7_witness :
    ∃ m : ℕ,
      reduction_ratio 3 10 =
        toString (m / 10) ++ "." ++ toString (m % 10) ++ "%" ∧
      |(1 - ((3:ℕ) : ℚ) / ((10:ℕ) : ℚ)) * 100 - (m : ℚ) / 10| ≤ 1 / 20 :=
  claim_C7_reduction_ratio_format.1 3 10 (by norm_num) (by norm_num)

